import Mathlib

/-!
Shallow embedding, in Lean 4, of the core logic of the `matsav_ok_bot`
repository, together with theorems settling the specification claims about it.

Covered source code:
* `security.py` — `SecurityManager`: rate limiting (`check_rate_limit`),
  action logging (`log_user_action`), content scoring
  (`check_suspicious_content` over the fixed regex list from
  `_init_suspicious_patterns`), blocking (`is_user_blocked` / `block_user`)
  and the moderation gate (`auto_moderate_phrase`).
* `scheduler_optimized.py` — `OptimizedNotificationScheduler`:
  the batch dispatch (`send_batch_notification`), the batch worker
  (`_send_batch`) and the per-recipient delivery worker (`_send_to_user`).

Modelling conventions:
* Python `datetime` values are modelled as `Int` timestamps in seconds;
  `timedelta(hours=1) = 3600`, `timedelta(days=1) = 86400`,
  `timedelta(minutes=1) = 60`, `timedelta(days=7) = 604800`.
* The mutable `SecurityManager` state that `auto_moderate_phrase` touches is
  passed explicitly: the blocked-user set (as a duplicate-free-by-insertion
  list) and the acting user's own action history (a list of records); the
  function returns the result record together with the updated state.
* Regular-expression search is embedded per pattern as an executable matcher
  over the text's character list; Python's `str.lower()` is modelled for the
  alphabets the patterns mention (ASCII and Cyrillic), other characters are
  left unchanged, exactly as `lower` leaves them.
* The scheduler's effects (sends, cooldown sleeps) are recorded in an explicit
  trace; an unexpected exception inside the dispatch loop is modelled by an
  interruption point (the index of the batch whose processing raises).
-/

namespace MatsavBot

/-! ### security.py : data model -/

/-- An entry of `SecurityManager.user_actions[user_id]` as built by
`log_user_action`: `{'type': ..., 'time': ..., 'content': content[:100]}`. -/
structure UserAction where
  type : String
  time : Int
  content : String
deriving DecidableEq

/-! ### security.py : character classes and `str.lower()` -/

/-- Character class of the regex `[A-ZА-Я]` (ASCII uppercase 65–90 and
Cyrillic uppercase U+0410–U+042F; `Ё` U+0401 is outside the class, exactly as
in the source pattern). -/
def isUpperClass (c : Char) : Bool :=
  (65 ≤ c.toNat && c.toNat ≤ 90) || (1040 ≤ c.toNat && c.toNat ≤ 1071)

/-- Word character `\w` of the Python patterns, restricted to the alphabets
this codebase uses: ASCII letters, digits, underscore, and Cyrillic letters. -/
def isWordClass (c : Char) : Bool :=
  (65 ≤ c.toNat && c.toNat ≤ 90) || (97 ≤ c.toNat && c.toNat ≤ 122) ||
  (48 ≤ c.toNat && c.toNat ≤ 57) || c == '_' ||
  (1040 ≤ c.toNat && c.toNat ≤ 1103) || c.toNat == 1025 || c.toNat == 1105

/-- Python `str.lower()` on one character, for the ASCII and Cyrillic ranges
relevant to the suspicious patterns; all other characters are unchanged. -/
def pyLower (c : Char) : Char :=
  if 65 ≤ c.toNat && c.toNat ≤ 90 then Char.ofNat (c.toNat + 32)
  else if 1040 ≤ c.toNat && c.toNat ≤ 1071 then Char.ofNat (c.toNat + 32)
  else if c.toNat == 1025 then Char.ofNat 1105
  else c

/-! ### security.py : regex matchers

Each matcher is `re.search` of one pattern from `_init_suspicious_patterns`,
embedded as an executable predicate on the character list. -/

/-- Does the list contain a run of at least `k` equal consecutive characters?
This is `re.search` of `(.)\1{5,}` for `k = 6`. -/
def hasEqRun (k : Nat) : List Char → Bool
  | [] => false
  | c :: t => (k ≤ ((c :: t).takeWhile (· == c)).length) || hasEqRun k t

/-- Does the list contain a run of at least `k` consecutive characters
satisfying `p`? This is `re.search` of `[x]{k,}` character-class repetition. -/
def hasPredRun (p : Char → Bool) (k : Nat) : List Char → Bool
  | [] => false
  | c :: t => (k ≤ ((c :: t).takeWhile p).length) || hasPredRun p k t

/-- Does `needle` occur as a contiguous substring of the list?
This is `re.search` of a literal alternative. -/
def containsSub (needle : List Char) : List Char → Bool
  | [] => needle.isEmpty
  | c :: t => needle.isPrefixOf (c :: t) || containsSub needle t

/-- Does `needle` occur, immediately followed by a character satisfying `p`?
This is `re.search` of `needle\w` style patterns (at least one `\w`). -/
def containsSubThen (needle : List Char) (p : Char → Bool) : List Char → Bool
  | [] => false
  | c :: t =>
    (needle.isPrefixOf (c :: t) &&
      (match (c :: t).drop needle.length with
       | d :: _ => p d
       | [] => false)) || containsSubThen needle p t

/-- Matcher of `(.)\1{5,}` (a character repeated six or more times). -/
def matchRepeatedChars (l : List Char) : Bool := hasEqRun 6 l

/-- Matcher of `[!]{3,}`. -/
def matchExclamations (l : List Char) : Bool := hasPredRun (· == '!') 3 l

/-- Matcher of `[?]{3,}`. -/
def matchQuestions (l : List Char) : Bool := hasPredRun (· == '?') 3 l

/-- Matcher of `[A-ZА-Я]{10,}` (ten or more consecutive uppercase letters). -/
def matchUppercaseRun (l : List Char) : Bool := hasPredRun isUpperClass 10 l

/-- Matcher of `bit\.ly|tinyurl|t\.me/\w+`. -/
def matchShortLinks (l : List Char) : Bool :=
  containsSub "bit.ly".toList l || containsSub "tinyurl".toList l ||
  containsSubThen "t.me/".toList isWordClass l

/-- Matcher of `@\w+`. -/
def matchMention (l : List Char) : Bool := containsSubThen ['@'] isWordClass l

/-- Matcher of `куп[иы]|продаж|скидк|акция|реклам`. -/
def matchAdWords1 (l : List Char) : Bool :=
  containsSub "купи".toList l || containsSub "купы".toList l ||
  containsSub "продаж".toList l || containsSub "скидк".toList l ||
  containsSub "акция".toList l || containsSub "реклам".toList l

/-- Matcher of `деньги|доход|заработ|млн|тысяч`. -/
def matchAdWords2 (l : List Char) : Bool :=
  containsSub "деньги".toList l || containsSub "доход".toList l ||
  containsSub "заработ".toList l || containsSub "млн".toList l ||
  containsSub "тысяч".toList l

/-- Matcher of `телеграм[- ]?канал|подписыва`. -/
def matchAdWords3 (l : List Char) : Bool :=
  containsSub "телеграм-канал".toList l || containsSub "телеграм канал".toList l ||
  containsSub "телеграмканал".toList l || containsSub "подписыва".toList l

/-- The ordered pattern list of `_init_suspicious_patterns`: each entry keeps
the Python regex source string (what `check_suspicious_content` returns) and
its embedded matcher. -/
def suspicious_patterns : List (String × (List Char → Bool)) :=
  [("(.)\\1{5,}", matchRepeatedChars),
   ("[!]{3,}", matchExclamations),
   ("[?]{3,}", matchQuestions),
   ("[A-ZА-Я]{10,}", matchUppercaseRun),
   ("bit\\.ly|tinyurl|t\\.me/\\w+", matchShortLinks),
   ("@\\w+", matchMention),
   ("куп[иы]|продаж|скидк|акция|реклам", matchAdWords1),
   ("деньги|доход|заработ|млн|тысяч", matchAdWords2),
   ("телеграм[- ]?канал|подписыва", matchAdWords3)]

/-- `SecurityManager.check_suspicious_content`: lowercases the text, then
collects (in order) every pattern whose search succeeds on the lowered text. -/
def check_suspicious_content (text : String) : List String :=
  let lowered := text.toList.map pyLower
  (suspicious_patterns.filter (fun p => p.2 lowered)).map Prod.fst

/-- `SecurityManager.is_content_suspicious`. -/
def is_content_suspicious (text : String) : Bool :=
  0 < (check_suspicious_content text).length

/-! ### security.py : rate limiting, logging, blocking -/

/-- `SecurityManager.check_rate_limit` for one user's action history.
The thresholds are the `rate_limits` of `__init__`:
`messages_per_hour = 10`, `phrases_per_day = 3`, `commands_per_minute = 5`;
an event is counted when its type matches and `a['time'] > now - window`. -/
def check_rate_limit (actions : List UserAction) (action_type : String)
    (now : Int) : Bool :=
  if action_type == "message" then
    if 10 ≤ (actions.filter
        (fun a => a.type == "message" && decide (now - 3600 < a.time))).length
    then false else true
  else if action_type == "phrase" then
    if 3 ≤ (actions.filter
        (fun a => a.type == "phrase" && decide (now - 86400 < a.time))).length
    then false else true
  else if action_type == "command" then
    if 5 ≤ (actions.filter
        (fun a => a.type == "command" && decide (now - 60 < a.time))).length
    then false else true
  else true

/-- `SecurityManager.log_user_action` on one user's history: appends the
record (content truncated to 100 characters), then prunes entries older than
seven days (`a['time'] > now - 7 days`). -/
def log_user_action (actions : List UserAction) (action_type content : String)
    (now : Int) : List UserAction :=
  ((actions ++ [(⟨action_type, now, content.take 100⟩ : UserAction)]).filter
    (fun a => decide (now - 604800 < a.time)))

/-- `SecurityManager.is_user_blocked`. -/
def is_user_blocked (blocked : List Int) (user_id : Int) : Bool :=
  blocked.contains user_id

/-- `SecurityManager.block_user` on the blocked set (`set.add`). -/
def block_user (blocked : List Int) (user_id : Int) : List Int :=
  if blocked.contains user_id then blocked else user_id :: blocked

/-- The result dictionary of `auto_moderate_phrase`. -/
structure ModResult where
  allowed : Bool
  reason : String
  suspicion_level : Nat
  auto_block : Bool
deriving DecidableEq

/-- `SecurityManager.auto_moderate_phrase`, mirroring the source control flow:
blocked check, then rate-limit check (both early returns, no logging), then
pattern scoring with the three-way severity branch, then `log_user_action`.
Returns the result record, the blocked set after the call, and the user's
action history after the call. -/
def auto_moderate_phrase (blocked : List Int) (actions : List UserAction)
    (user_id : Int) (phrase : String) (now : Int) :
    ModResult × List Int × List UserAction :=
  if is_user_blocked blocked user_id then
    (⟨false, "Пользователь заблокирован", 0, false⟩, blocked, actions)
  else if !(check_rate_limit actions "phrase" now) then
    (⟨false, "Превышен лимит фраз в день", 3, false⟩, blocked, actions)
  else
    let pats := check_suspicious_content phrase
    let result : ModResult :=
      if pats.isEmpty then ⟨true, "", 0, false⟩
      else
        if 3 ≤ pats.length then
          ⟨false, "Подозрительное содержимое", pats.length, true⟩
        else if 2 ≤ pats.length then
          ⟨false, "Требует ручной модерации", pats.length, false⟩
        else ⟨true, "", pats.length, false⟩
    (result, blocked, log_user_action actions "phrase" phrase now)

/-- Reference algorithm of the abuse gate as the specification words it, for
the refinement claim: blocked check first; then the rate-limit rejection with
severity 3; then severity := matched-pattern-class count, with `severity ≥ 3`
rejected and auto-blocking, `severity == 2` rejected for manual review, and
`severity ≤ 1` allowed. To be compared against `auto_moderate_phrase`. -/
def abuseGateSpec (blocked : List Int) (actions : List UserAction)
    (user_id : Int) (phrase : String) (now : Int) : ModResult :=
  if is_user_blocked blocked user_id then
    ⟨false, "Пользователь заблокирован", 0, false⟩
  else if check_rate_limit actions "phrase" now = false then
    ⟨false, "Превышен лимит фраз в день", 3, false⟩
  else
    let severity := (check_suspicious_content phrase).length
    if 3 ≤ severity then ⟨false, "Подозрительное содержимое", severity, true⟩
    else if severity = 2 then ⟨false, "Требует ручной модерации", severity, false⟩
    else ⟨true, "", severity, false⟩

/-! ### scheduler_optimized.py : data model -/

/-- The slice of `OptimizedNotificationScheduler` state that
`send_batch_notification` reads and writes: the mutual-exclusion flag
`is_sending`, the run counter `notification_count`, and the aggregate
counters `stats['total_sent']` / `stats['total_failed']`. -/
structure SchedState where
  is_sending : Bool
  notification_count : Nat
  total_sent : Nat
  total_failed : Nat
deriving DecidableEq

/-- The environment of one dispatch run: the recipients returned by
`get_active_users`, the payload returned by `get_random_phrase` (`none` when
the database yields no phrase), the per-recipient delivery outcome, and an
optional interruption point — `some k` means an unexpected exception is
raised while batch `k` (0-based) is being processed, modelling the
`except Exception` arm of the source. -/
structure RunEnv where
  users : List Nat
  phrase : Option String
  deliver : Nat → Bool
  interrupt : Option Nat

/-- Observable trace of one `send_batch_notification` invocation: the
recipients handed to `_send_batch` in order, the number of inter-batch
cooldown sleeps (`asyncio.sleep(self.batch_delay)`), and whether the run was
cut short by an exception. -/
structure RunTrace where
  sends : List Nat
  cooldowns : Nat
  interrupted : Bool
deriving DecidableEq

/-! ### scheduler_optimized.py : batching -/

/-- Fuel-driven helper for `chunks50`: peels `users[i:i+50]` slices, exactly
the list comprehension
`[users[i:i + self.batch_size] for i in range(0, len(users), self.batch_size)]`
with `batch_size = 50`. The fuel argument only forces structural recursion;
`chunks50` supplies enough fuel for it never to run out. -/
def chunksF : Nat → List Nat → List (List Nat)
  | 0, _ => []
  | _, [] => []
  | fuel + 1, u :: us => (u :: us.take 49) :: chunksF fuel (us.drop 49)

/-- The batch partition of the recipient list, batch size 50. -/
def chunks50 (users : List Nat) : List (List Nat) := chunksF users.length users

/-- Result of the batch loop of `send_batch_notification`: the running
`sent_count` / `failed_count`, the recipients processed, the number of
cooldown sleeps performed, and whether the loop was interrupted. -/
structure ProcResult where
  sent : Nat
  failed : Nat
  sends : List Nat
  cooldowns : Nat
  interrupted : Bool
deriving DecidableEq

/-- The batch loop `for batch_num, batch_users in enumerate(batches, 1)` of
`send_batch_notification`: batch `b` (0-based) is dispatched via
`_send_batch`, then a cooldown sleep runs when `batch_num < len(batches)`,
i.e. `b + 1 < total`. When `interrupt = some b`, the exception fires at
batch `b`: nothing of that batch or any later one is processed, while every
earlier batch (and the cooldown that preceded batch `b`) already happened. -/
def procBatches (deliver : Nat → Bool) (interrupt : Option Nat) (total : Nat) :
    Nat → List (List Nat) → ProcResult
  | _, [] => ⟨0, 0, [], 0, false⟩
  | b, batch :: rest =>
    if interrupt = some b then ⟨0, 0, [], 0, true⟩
    else
      let sentHere := (batch.filter deliver).length
      let cool := if b + 1 < total then 1 else 0
      let after := procBatches deliver interrupt total (b + 1) rest
      ⟨sentHere + after.sent, (batch.length - sentHere) + after.failed,
       batch ++ after.sends, cool + after.cooldowns, after.interrupted⟩

/-- `OptimizedNotificationScheduler.send_batch_notification`.
Mirrors the source control flow: the `is_sending` guard returns immediately;
otherwise the flag is set, the `try` body runs (early returns on empty
recipients or missing phrase; else `notification_count += 1`, the batch loop,
and — only on normal completion — the `stats` update), `except Exception`
swallows an interruption, and `finally` clears the flag on every path. -/
def send_batch_notification (s : SchedState) (env : RunEnv) :
    SchedState × RunTrace :=
  if s.is_sending then (s, ⟨[], 0, false⟩)
  else
    match env.users, env.phrase with
    | [], _ => ({ s with is_sending := false }, ⟨[], 0, false⟩)
    | _ :: _, none => ({ s with is_sending := false }, ⟨[], 0, false⟩)
    | u :: us, some _ =>
      let batches := chunks50 (u :: us)
      let r := procBatches env.deliver env.interrupt batches.length 0 batches
      if r.interrupted then
        ({ s with is_sending := false,
                  notification_count := s.notification_count + 1 },
         ⟨r.sends, r.cooldowns, true⟩)
      else
        ({ is_sending := false,
           notification_count := s.notification_count + 1,
           total_sent := s.total_sent + r.sent,
           total_failed := s.total_failed + r.failed },
         ⟨r.sends, r.cooldowns, false⟩)

/-! ### scheduler_optimized.py : per-recipient worker -/

/-- Outcome of one `bot.send_message` call, the exceptions of the transport:
`python-telegram-bot`'s `Forbidden`, `RetryAfter`, `ChatMigrated`,
other `TelegramError`s, and any other exception. -/
inductive TransportResp where
  | ok
  | forbidden
  | retryAfter (t : Nat)
  | chatMigrated (newId : Int)
  | telegramError (msg : String)
  | otherError (msg : String)
deriving DecidableEq

/-- Observable outcome of `_send_to_user`: the returned boolean, the duration
of the backoff sleep if one happened, the number of `send_message` attempts,
and whether `mark_user_inactive` was called for the recipient. -/
structure SendOutcome where
  success : Bool
  retrySleep : Option Nat
  attempts : Nat
  markedInactive : Bool
deriving DecidableEq

/-- `OptimizedNotificationScheduler._send_to_user`: `first` is the transport's
response to the initial `send_message`, `second` the response to the single
retry (consulted only in the `RetryAfter` branch, whose inner
`except Exception` turns any non-ok retry response into a failure). -/
def send_to_user (first second : TransportResp) : SendOutcome :=
  match first with
  | .ok => ⟨true, none, 1, false⟩
  | .forbidden => ⟨false, none, 1, true⟩
  | .retryAfter t =>
    match second with
    | .ok => ⟨true, some (min t 60), 2, false⟩
    | _ => ⟨false, some (min t 60), 2, false⟩
  | .chatMigrated _ => ⟨false, none, 1, false⟩
  | .telegramError msg =>
    ⟨false, none, 1, containsSub "blocked".toList (msg.toList.map pyLower)⟩
  | .otherError _ => ⟨false, none, 1, false⟩

/-! ### scheduler_optimized.py : batch worker -/

/-- One entry of the `asyncio.gather(*tasks, return_exceptions=True)` result:
either a raised exception captured by `gather`, or the boolean returned by
`_send_to_user`. -/
inductive TaskResult where
  | exn
  | val (b : Bool)
deriving DecidableEq

/-- The result-classification step of `_send_batch`: an exception or a falsy
result increments `failed_count`, a truthy result increments `sent_count`. -/
def countStep (acc : Nat × Nat) (r : TaskResult) : Nat × Nat :=
  match r with
  | .exn => (acc.1, acc.2 + 1)
  | .val true => (acc.1 + 1, acc.2)
  | .val false => (acc.1, acc.2 + 1)

/-- `OptimizedNotificationScheduler._send_batch`: one task per recipient,
`gather` yields one `TaskResult` per recipient (given by `outcome`), and the
loop over `zip(user_ids, results)` accumulates `(sent_count, failed_count)`. -/
def send_batch (user_ids : List Nat) (outcome : Nat → TaskResult) : Nat × Nat :=
  (user_ids.map outcome).foldl countStep (0, 0)

/-! ### Helper lemmas -/

/-- Shifting the bound across the subtraction does not change which actions a
trailing-window filter keeps. -/
lemma filter_window_shift (actions : List UserAction) (ty : String)
    (now w : Int) :
    (actions.filter (fun a => a.type == ty && decide (now - w < a.time))).length =
    (actions.filter (fun a => a.type == ty && decide (now - a.time < w))).length := by
  congr 1
  apply List.filter_congr
  intro a _
  by_cases h : now - w < a.time
  · have h2 : now - a.time < w := by omega
    simp [h, h2]
  · have h2 : ¬(now - a.time < w) := by omega
    simp [h, h2]

/-! ### C2 : rate-limit admission -/

/-- C2: for each action kind in {message, phrase, command}, `check_rate_limit`
returns `false` iff the number of recorded events of that kind whose age at
`now` is strictly below the window (1 hour / 24 hours / 1 minute) reaches the
threshold (10 / 3 / 5); an event whose age equals the window is excluded. -/
theorem rate_limit_window_iff (actions : List UserAction) (now : Int) :
    (check_rate_limit actions "message" now = false ↔
      10 ≤ (actions.filter
        (fun a => a.type == "message" && decide (now - a.time < 3600))).length) ∧
    (check_rate_limit actions "phrase" now = false ↔
      3 ≤ (actions.filter
        (fun a => a.type == "phrase" && decide (now - a.time < 86400))).length) ∧
    (check_rate_limit actions "command" now = false ↔
      5 ≤ (actions.filter
        (fun a => a.type == "command" && decide (now - a.time < 60))).length) := by
  refine ⟨?_, ?_, ?_⟩
  · rw [show check_rate_limit actions "message" now =
        (if 10 ≤ (actions.filter
            (fun a => a.type == "message" && decide (now - 3600 < a.time))).length
         then false else true) from rfl,
      filter_window_shift actions "message" now 3600]
    by_cases h : 10 ≤ (actions.filter
        (fun a => a.type == "message" && decide (now - a.time < 3600))).length <;>
      simp [h]
  · rw [show check_rate_limit actions "phrase" now =
        (if 3 ≤ (actions.filter
            (fun a => a.type == "phrase" && decide (now - 86400 < a.time))).length
         then false else true) from rfl,
      filter_window_shift actions "phrase" now 86400]
    by_cases h : 3 ≤ (actions.filter
        (fun a => a.type == "phrase" && decide (now - a.time < 86400))).length <;>
      simp [h]
  · rw [show check_rate_limit actions "command" now =
        (if 5 ≤ (actions.filter
            (fun a => a.type == "command" && decide (now - 60 < a.time))).length
         then false else true) from rfl,
      filter_window_shift actions "command" now 60]
    by_cases h : 5 ≤ (actions.filter
        (fun a => a.type == "command" && decide (now - a.time < 60))).length <;>
      simp [h]

/-! ### C3 : abuse-gate decision algorithm -/

/-- C3: the decision computed by `auto_moderate_phrase` equals, on every
input, the ordered reference algorithm of the specification
(`abuseGateSpec`): blocked precedence, then the rate-limit rejection with
severity 3, then the three-way severity branch on the matched-pattern count. -/
theorem moderation_matches_reference (blocked : List Int)
    (actions : List UserAction) (user_id : Int) (phrase : String) (now : Int) :
    (auto_moderate_phrase blocked actions user_id phrase now).1 =
      abuseGateSpec blocked actions user_id phrase now := by
  unfold auto_moderate_phrase abuseGateSpec
  by_cases hb : is_user_blocked blocked user_id
  · simp [hb]
  · cases hr : check_rate_limit actions "phrase" now
    · simp [hb, hr]
    · simp only [hb, hr, Bool.not_true, Bool.false_eq_true, if_false,
        Bool.true_eq_false]
      by_cases hp : (check_suspicious_content phrase).isEmpty
      · have h0 : (check_suspicious_content phrase).length = 0 := by
          rw [List.isEmpty_iff] at hp
          simp [hp]

        simp [hp, h0]
      · by_cases h3 : 3 ≤ (check_suspicious_content phrase).length
        · simp [hp, h3]
        · by_cases h2 : 2 ≤ (check_suspicious_content phrase).length
          · have he : (check_suspicious_content phrase).length = 2 := by omega
            simp [hp, h3, h2, he]
          · have hne : ¬((check_suspicious_content phrase).length = 2) := by
              omega
            simp [hp, h3, h2, hne]

/-! ### C7 : record-after-decision -/

/-- C7: a call rejected because the user is blocked, or because the phrase
rate limit rejects, leaves the user's action history unchanged; on every
other path exactly one new record for the submission is appended (the call
simultaneously prunes records older than seven days, which is the only other
change `log_user_action` makes). -/
theorem moderation_history_update (blocked : List Int)
    (actions : List UserAction) (user_id : Int) (phrase : String) (now : Int) :
    (is_user_blocked blocked user_id = true →
      (auto_moderate_phrase blocked actions user_id phrase now).2.2 = actions) ∧
    (is_user_blocked blocked user_id = false →
      check_rate_limit actions "phrase" now = false →
      (auto_moderate_phrase blocked actions user_id phrase now).2.2 = actions) ∧
    (is_user_blocked blocked user_id = false →
      check_rate_limit actions "phrase" now = true →
      (auto_moderate_phrase blocked actions user_id phrase now).2.2 =
        (actions.filter (fun a => decide (now - 604800 < a.time))) ++
          [(⟨"phrase", now, phrase.take 100⟩ : UserAction)]) := by
  refine ⟨?_, ?_, ?_⟩
  · intro hb
    simp [auto_moderate_phrase, hb]
  · intro hb hr
    simp [auto_moderate_phrase, hb, hr]
  · intro hb hr
    have ht : now - 604800 < now := by omega
    simp [auto_moderate_phrase, hb, hr, log_user_action, List.filter_append,
      ht]

/-- Witness for C7: a fresh, unblocked, un-rate-limited user submitting
`"hi"` at time 0 ends with exactly the one new record in their history. -/
theorem moderation_history_update_witness :
    is_user_blocked ([] : List Int) 1 = false ∧
    check_rate_limit [] "phrase" 0 = true ∧
    (auto_moderate_phrase [] [] 1 "hi" 0).2.2 =
      [(⟨"phrase", 0, "hi".take 100⟩ : UserAction)] := by
  refine ⟨rfl, rfl, ?_⟩
  have h := (moderation_history_update [] [] 1 "hi" 0).2.2 rfl rfl
  simpa using h

/-! ### C8 : auto-block side effect -/

/-- C8 counterexample: a previously-unblocked subject submits text matching
three pattern classes (`!!!`, `???`, `@spam`); the gate returns
`auto_block = true`, yet the blocked set returned by the very same call is
still empty and the membership check for the subject still says `false` —
`auto_moderate_phrase` never calls `block_user` (the caller in
`bot_handlers_*.py` does, after the call returns). -/
theorem gate_autoblock_not_applied :
    ((auto_moderate_phrase [] [] 1 "!!!???@spam" 0).1.auto_block = true) ∧
    ((auto_moderate_phrase [] [] 1 "!!!???@spam" 0).2.1 = []) ∧
    (is_user_blocked (auto_moderate_phrase [] [] 1 "!!!???@spam" 0).2.1 1 =
      false) := by
  refine ⟨by decide, by decide, by decide⟩

/-- C8 amended: the gate itself never mutates the blocked set on any path;
at severity ≥ 3 for an unblocked, admitted subject it only raises the
`auto_block` flag, leaving the blocked set exactly as it was. -/
theorem gate_never_mutates_blocklist (blocked : List Int)
    (actions : List UserAction) (user_id : Int) (phrase : String) (now : Int) :
    ((auto_moderate_phrase blocked actions user_id phrase now).2.1 = blocked) ∧
    (is_user_blocked blocked user_id = false →
      check_rate_limit actions "phrase" now = true →
      3 ≤ (check_suspicious_content phrase).length →
      (auto_moderate_phrase blocked actions user_id phrase now).1.auto_block =
        true) := by
  constructor
  · unfold auto_moderate_phrase
    by_cases hb : is_user_blocked blocked user_id
    · simp [hb]
    · cases hr : check_rate_limit actions "phrase" now <;> simp [hb, hr]
  · intro hb hr h3
    have hne : ¬(check_suspicious_content phrase).isEmpty := by
      rw [List.isEmpty_iff]
      intro hnil
      rw [hnil] at h3
      simp at h3
    simp [auto_moderate_phrase, hb, hr, hne, h3]

/-- Witness for C8's amended statement: a concrete severity-3 submission from
an unblocked subject raises the flag while the blocked set stays `[]`. -/
theorem gate_never_mutates_blocklist_witness :
    ((auto_moderate_phrase [] [] 2 "???!!!@ad" 5).2.1 = []) ∧
    (is_user_blocked ([] : List Int) 2 = false ∧
      check_rate_limit [] "phrase" 5 = true ∧
      3 ≤ (check_suspicious_content "???!!!@ad").length ∧
      (auto_moderate_phrase [] [] 2 "???!!!@ad" 5).1.auto_block = true) :=
  ⟨(gate_never_mutates_blocklist [] [] 2 "???!!!@ad" 5).1,
   by decide, rfl, by decide,
   (gate_never_mutates_blocklist [] [] 2 "???!!!@ad" 5).2 rfl rfl (by decide)⟩

/-! ### C9 : the long-uppercase-run pattern -/

/-- Valid code points below the surrogate range survive the
`Char.ofNat`/`Char.toNat` round trip. -/
lemma char_toNat_ofNat (n : Nat) (h : n < 55296) : (Char.ofNat n).toNat = n := by
  unfold Char.ofNat
  rw [dif_pos (Or.inl h : Nat.isValidChar n)]
  simp [Char.ofNatAux, Char.toNat, UInt32.toNat, BitVec.toNat_ofNatLt]

/-- Lowercasing never produces a character of the `[A-ZА-Я]` class. -/
lemma pyLower_not_upper (c : Char) : isUpperClass (pyLower c) = false := by
  unfold pyLower
  by_cases h1 : (65 ≤ c.toNat && c.toNat ≤ 90) = true
  · rw [if_pos h1]
    have hb : 65 ≤ c.toNat ∧ c.toNat ≤ 90 := by
      simpa [Bool.and_eq_true, decide_eq_true_eq] using h1
    unfold isUpperClass
    rw [char_toNat_ofNat (c.toNat + 32) (by omega)]
    have hA : ¬(c.toNat + 32 ≤ 90) := by omega
    have hB : ¬(1040 ≤ c.toNat + 32) := by omega
    simp [hA, hB]
  · rw [if_neg h1]
    by_cases h2 : (1040 ≤ c.toNat && c.toNat ≤ 1071) = true
    · rw [if_pos h2]
      have hb : 1040 ≤ c.toNat ∧ c.toNat ≤ 1071 := by
        simpa [Bool.and_eq_true, decide_eq_true_eq] using h2
      unfold isUpperClass
      rw [char_toNat_ofNat (c.toNat + 32) (by omega)]
      have hA : ¬(c.toNat + 32 ≤ 90) := by omega
      have hB : ¬(c.toNat + 32 ≤ 1071) := by omega
      simp [hA, hB]
    · rw [if_neg h2]
      by_cases h3 : (c.toNat == 1025) = true
      · rw [if_pos h3]
        decide
      · rw [if_neg h3]
        unfold isUpperClass
        have e1 : (65 ≤ c.toNat && c.toNat ≤ 90) = false :=
          Bool.eq_false_iff.mpr h1
        have e2 : (1040 ≤ c.toNat && c.toNat ≤ 1071) = false :=
          Bool.eq_false_iff.mpr h2
        rw [e1, e2]
        rfl

/-- A run predicate with a positive length bound fails on a list none of
whose characters satisfies the class. -/
lemma hasPredRun_false_of_none (p : Char → Bool) (k : Nat) (hk : 0 < k) :
    ∀ l : List Char, (∀ c ∈ l, p c = false) → hasPredRun p k l = false := by
  intro l
  induction l with
  | nil => intro _; rfl
  | cons c t ih =>
    intro h
    have hc : p c = false := h c (List.mem_cons_self c t)
    have hk0 : ¬(k ≤ 0) := by omega
    simp only [hasPredRun, List.takeWhile_cons, hc, Bool.false_eq_true,
      if_false, List.length_nil, hk0, decide_eq_true_eq, Bool.or_eq_false_iff]
    refine ⟨by simp [hk0], ih (fun d hd => h d (List.mem_cons_of_mem c hd))⟩

/-- A name absent from every admitted pair never appears in the projected
filter result. -/
lemma contains_map_fst_filter (name : String) (l : List Char) :
    ∀ ps : List (String × (List Char → Bool)),
      (∀ q ∈ ps, q.1 = name → q.2 l = false) →
      ((ps.filter (fun q => q.2 l)).map Prod.fst).contains name = false := by
  intro ps
  induction ps with
  | nil => intro _; rfl
  | cons q qs ih =>
    intro h
    rw [List.filter_cons]
    by_cases hc : q.2 l = true
    · rw [if_pos hc, List.map_cons, List.contains_cons]
      have hq : ¬(q.1 = name) := by
        intro he
        rw [h q (List.mem_cons_self q qs) he] at hc
        exact Bool.false_ne_true hc
      have hbeq : (name == q.1) = false := by
        rw [beq_eq_false_iff_ne]
        exact fun he => hq he.symm
      rw [hbeq, Bool.false_or]
      exact ih fun r hr => h r (List.mem_cons_of_mem _ hr)
    · have hcf : q.2 l = false := Bool.eq_false_iff.mpr hc
      rw [if_neg (by simp [hcf])]
      exact ih fun r hr => h r (List.mem_cons_of_mem _ hr)

/-- C9: the claim is right about the pattern list and wrong about the code's
behavior — `check_suspicious_content` searches the patterns on the
*lowercased* text, so the `[A-ZА-Я]{10,}` class can match no text at all
(first conjunct); in particular the text `"ABCDEFGHIJ"`, which consists of a
ten-character uppercase run (second conjunct), matches zero pattern classes
(third conjunct) although the claim demands a count of at least 1. -/
theorem uppercase_pattern_class_dead :
    (∀ text : String,
      (check_suspicious_content text).contains "[A-ZА-Я]{10,}" = false) ∧
    (hasPredRun isUpperClass 10 "ABCDEFGHIJ".toList = true) ∧
    (check_suspicious_content "ABCDEFGHIJ" = []) := by
  refine ⟨?_, by decide, by decide⟩
  intro text
  show ((suspicious_patterns.filter
      (fun p => p.2 (text.toList.map pyLower))).map Prod.fst).contains
      "[A-ZА-Я]{10,}" = false
  apply contains_map_fst_filter
  intro q hq hname
  have hupper : matchUppercaseRun (text.toList.map pyLower) = false := by
    apply hasPredRun_false_of_none isUpperClass 10 (by omega)
    intro c hc
    rcases List.mem_map.mp hc with ⟨a, _, rfl⟩
    exact pyLower_not_upper a
  simp only [suspicious_patterns, List.mem_cons, List.not_mem_nil,
    or_false] at hq
  rcases hq with rfl | rfl | rfl | rfl | rfl | rfl | rfl | rfl | rfl <;>
    first
      | exact absurd hname (by decide)
      | exact hupper

/-! ### Helper lemmas for the batch partition -/

/-- With enough fuel, flattening the chunks restores the recipient list. -/
lemma chunksF_flatten (fuel : Nat) :
    ∀ l : List Nat, l.length ≤ fuel → (chunksF fuel l).flatten = l := by
  induction fuel with
  | zero =>
    intro l h
    cases l with
    | nil => rfl
    | cons u us => simp at h
  | succ n ih =>
    intro l h
    cases l with
    | nil => rfl
    | cons u us =>
      show ((u :: us.take 49) :: chunksF n (us.drop 49)).flatten = u :: us
      rw [List.flatten_cons,
        ih (us.drop 49) (by simp only [List.length_drop]; simp only [List.length_cons] at h; omega),
        List.cons_append, List.take_append_drop]

/-- With enough fuel, every chunk is nonempty and at most 50 long. -/
lemma chunksF_size (fuel : Nat) :
    ∀ l : List Nat, l.length ≤ fuel →
      ∀ c ∈ chunksF fuel l, 0 < c.length ∧ c.length ≤ 50 := by
  induction fuel with
  | zero =>
    intro l h c hc
    cases l with
    | nil => simp [chunksF] at hc
    | cons u us => simp at h
  | succ n ih =>
    intro l h c hc
    cases l with
    | nil => simp [chunksF] at hc
    | cons u us =>
      rw [show chunksF (n + 1) (u :: us) =
          (u :: us.take 49) :: chunksF n (us.drop 49) from rfl,
        List.mem_cons] at hc
      rcases hc with rfl | hc
      · constructor
        · simp
        · have := List.length_take 49 us
          simp only [List.length_cons, this]
          omega
      · exact ih (us.drop 49) (by simp only [List.length_drop]; simp only [List.length_cons] at h; omega) c hc

/-- With enough fuel, the chunk list is empty only for the empty input. -/
lemma chunksF_eq_nil_iff (fuel : Nat) (l : List Nat) (h : l.length ≤ fuel) :
    chunksF fuel l = [] ↔ l = [] := by
  cases fuel with
  | zero =>
    cases l with
    | nil => simp [chunksF]
    | cons u us => simp at h
  | succ n =>
    cases l with
    | nil => simp [chunksF]
    | cons u us => simp [chunksF]

/-- With enough fuel, every chunk except the last has length exactly 50. -/
lemma chunksF_dropLast (fuel : Nat) :
    ∀ l : List Nat, l.length ≤ fuel →
      ∀ c ∈ (chunksF fuel l).dropLast, c.length = 50 := by
  induction fuel with
  | zero =>
    intro l h c hc
    cases l with
    | nil => simp [chunksF] at hc
    | cons u us => simp at h
  | succ n ih =>
    intro l h c hc
    cases l with
    | nil => simp [chunksF] at hc
    | cons u us =>
      rw [show chunksF (n + 1) (u :: us) =
          (u :: us.take 49) :: chunksF n (us.drop 49) from rfl] at hc
      have hdrop : (us.drop 49).length ≤ n := by
        simp only [List.length_drop]; simp only [List.length_cons] at h; omega
      rcases hrest : chunksF n (us.drop 49) with _ | ⟨r, rs⟩
      · rw [hrest] at hc
        simp at hc
      · rw [hrest, List.dropLast_cons₂, List.mem_cons] at hc
        rcases hc with rfl | hc
        · have hne : us.drop 49 ≠ [] := by
            intro hnil
            rw [hnil] at hrest
            rw [(chunksF_eq_nil_iff n [] (by simp)).mpr rfl] at hrest
            exact List.noConfusion hrest
          have h49 : 49 < us.length := by
            by_contra hle
            exact hne (List.drop_eq_nil_of_le (by omega))
          have := List.length_take 49 us
          simp only [List.length_cons, this]
          omega
        · exact ih (us.drop 49) hdrop c (by rw [hrest]; exact hc)

/-- An uninterrupted batch loop never reports interruption, hands every batch
member to `_send_batch` in order, and sleeps between batches exactly
`batches.length - 1` times. -/
lemma procBatches_no_interrupt (del : Nat → Bool) :
    ∀ (batches : List (List Nat)) (b total : Nat),
      b + batches.length = total →
      (procBatches del none total b batches).interrupted = false ∧
      (procBatches del none total b batches).sends = batches.flatten ∧
      (procBatches del none total b batches).cooldowns = batches.length - 1 := by
  intro batches
  induction batches with
  | nil => intro b total h; exact ⟨rfl, rfl, rfl⟩
  | cons batch rest ih =>
    intro b total h
    have hlen : b + 1 + rest.length = total := by
      simp only [List.length_cons] at h
      omega
    have hrec := ih (b + 1) total hlen
    show (procBatches del none total b (batch :: rest)).interrupted = false ∧ _
    rw [show procBatches del none total b (batch :: rest) =
        ⟨(batch.filter del).length +
            (procBatches del none total (b + 1) rest).sent,
          (batch.length - (batch.filter del).length) +
            (procBatches del none total (b + 1) rest).failed,
          batch ++ (procBatches del none total (b + 1) rest).sends,
          (if b + 1 < total then 1 else 0) +
            (procBatches del none total (b + 1) rest).cooldowns,
          (procBatches del none total (b + 1) rest).interrupted⟩ from by
      rw [show procBatches del none total b (batch :: rest) =
          if (none : Option Nat) = some b then ⟨0, 0, [], 0, true⟩ else _ from
        rfl]
      rw [if_neg (by simp)]]
    refine ⟨hrec.1, ?_, ?_⟩
    · rw [List.flatten_cons, hrec.2.1]
    · rw [hrec.2.2]
      cases rest with
      | nil =>
        have : ¬(b + 1 < total) := by
          simp only [List.length_nil] at hlen
          omega
        simp [this]
      | cons r rs =>
        have : b + 1 < total := by
          simp only [List.length_cons] at hlen
          omega
        simp only [this, if_true, List.length_cons]
        omega

/-! ### C1 : mutual exclusion of dispatch runs -/

/-- C1: an invocation of `send_batch_notification` that finds the
`is_sending` flag set returns with the state untouched and an empty trace —
no recipient is contacted, nothing is queued; an invocation that acquires
the flag ends with the flag clear again on every path (early return on empty
recipients, early return on a missing phrase, normal completion, and the
exception path), for every environment. -/
theorem dispatch_mutual_exclusion (s : SchedState) (env : RunEnv) :
    (s.is_sending = true →
      send_batch_notification s env = (s, ⟨[], 0, false⟩)) ∧
    (s.is_sending = false →
      (send_batch_notification s env).1.is_sending = false) := by
  constructor
  · intro h
    simp [send_batch_notification, h]
  · intro h
    rcases env with ⟨users, ph, del, intr⟩
    cases users with
    | nil => cases ph <;> simp [send_batch_notification, h]
    | cons u us =>
      cases ph with
      | none => simp [send_batch_notification, h]
      | some p =>
        simp only [send_batch_notification, h, Bool.false_eq_true, if_false]
        split <;> rfl

/-- Witness for C1: with the flag set the invocation is a no-op with an empty
trace; with the flag clear it ends with the flag clear. -/
theorem dispatch_mutual_exclusion_witness :
    send_batch_notification ⟨true, 0, 0, 0⟩
        ⟨[1], some "x", fun _ => true, none⟩ =
      (⟨true, 0, 0, 0⟩, ⟨[], 0, false⟩) ∧
    (send_batch_notification ⟨false, 0, 0, 0⟩
        ⟨[1], some "x", fun _ => true, none⟩).1.is_sending = false :=
  ⟨(dispatch_mutual_exclusion ⟨true, 0, 0, 0⟩
      ⟨[1], some "x", fun _ => true, none⟩).1 rfl,
   (dispatch_mutual_exclusion ⟨false, 0, 0, 0⟩
      ⟨[1], some "x", fun _ => true, none⟩).2 rfl⟩

/-! ### C5 : batch partitioning and cooldowns -/

/-- C5: the dispatcher's partition is contiguous and order-preserving
(flattening restores the input), every batch has between 1 and 50 members,
every batch except the last has exactly 50, a 120-recipient list yields the
batch sizes [50, 50, 20], and an uninterrupted run hands the recipients to
the batch worker in input order while performing the 0.5-second cooldown
after every batch except the last — `length - 1` times. -/
theorem batch_partitioning (l : List Nat) (s : SchedState) (del : Nat → Bool)
    (ph : String) :
    ((chunks50 l).flatten = l) ∧
    (∀ c ∈ chunks50 l, 0 < c.length ∧ c.length ≤ 50) ∧
    (∀ c ∈ (chunks50 l).dropLast, c.length = 50) ∧
    ((chunks50 (List.range 120)).map List.length = [50, 50, 20]) ∧
    (l ≠ [] → s.is_sending = false →
      (send_batch_notification s ⟨l, some ph, del, none⟩).2.sends = l ∧
      (send_batch_notification s ⟨l, some ph, del, none⟩).2.cooldowns =
        (chunks50 l).length - 1) := by
  refine ⟨chunksF_flatten l.length l le_rfl, chunksF_size l.length l le_rfl,
    chunksF_dropLast l.length l le_rfl, by decide, ?_⟩
  intro hne h
  cases l with
  | nil => exact absurd rfl hne
  | cons u us =>
    have hp := procBatches_no_interrupt del (chunks50 (u :: us)) 0
      (chunks50 (u :: us)).length (by omega)
    simp only [send_batch_notification, h, Bool.false_eq_true, if_false]
    rw [if_neg (by rw [hp.1]; exact Bool.false_ne_true)]
    refine ⟨?_, hp.2.2⟩
    rw [hp.2.1]
    exact chunksF_flatten (u :: us).length (u :: us) le_rfl

/-- Witness for C5: the three-element list forms a single batch, is handed
over unchanged, and triggers no cooldown sleep. -/
theorem batch_partitioning_witness :
    (0 < ([1, 2, 3] : List Nat).length ∧ ([1, 2, 3] : List Nat).length ≤ 50) ∧
    ((send_batch_notification ⟨false, 0, 0, 0⟩
        ⟨[1, 2, 3], some "m", fun _ => true, none⟩).2.sends = [1, 2, 3] ∧
      (send_batch_notification ⟨false, 0, 0, 0⟩
        ⟨[1, 2, 3], some "m", fun _ => true, none⟩).2.cooldowns =
        (chunks50 [1, 2, 3]).length - 1) :=
  ⟨(batch_partitioning [1, 2, 3] ⟨false, 0, 0, 0⟩ (fun _ => true) "m").2.1
      [1, 2, 3] (by decide),
   (batch_partitioning [1, 2, 3] ⟨false, 0, 0, 0⟩ (fun _ => true) "m").2.2.2.2
      (by decide) rfl⟩

/-! ### C6 : partial statistics of an interrupted run -/

/-- C6 counterexample: 51 recipients who all succeed, with an exception
raised at the second batch. The first batch's 50 successful deliveries did
happen (the partial `sent_count` is 50 and 50 recipients were contacted),
the run is interrupted — yet the aggregate counter `total_sent` still reads
0 afterwards, because the `stats` update sits inside the `try` block and is
skipped when the exception fires; the claim's "partial statistics are still
reported" is false on this input. -/
theorem interrupted_run_stats_lost :
    ((procBatches (fun _ => true) (some 1) (chunks50 (List.range 51)).length
        0 (chunks50 (List.range 51))).sent = 50) ∧
    ((send_batch_notification ⟨false, 0, 0, 0⟩
        ⟨List.range 51, some "hi", fun _ => true, some 1⟩).2.interrupted =
      true) ∧
    ((send_batch_notification ⟨false, 0, 0, 0⟩
        ⟨List.range 51, some "hi", fun _ => true, some 1⟩).2.sends.length =
      50) ∧
    ((send_batch_notification ⟨false, 0, 0, 0⟩
        ⟨List.range 51, some "hi", fun _ => true, some 1⟩).1.total_sent =
      0) := by
  refine ⟨by decide, by decide, by decide, by decide⟩

/-- C6 amended: a run interrupted by an unexpected exception does not
propagate it (the model returns normally) and still clears the
mutual-exclusion flag and counts the run, but the partial sent/failed
statistics accumulated before the interruption are NOT added to the
aggregate counters — `total_sent` and `total_failed` are unchanged. -/
theorem interrupted_run_contained (s : SchedState) (env : RunEnv)
    (h : s.is_sending = false)
    (hint : (send_batch_notification s env).2.interrupted = true) :
    (send_batch_notification s env).1.is_sending = false ∧
    (send_batch_notification s env).1.total_sent = s.total_sent ∧
    (send_batch_notification s env).1.total_failed = s.total_failed ∧
    (send_batch_notification s env).1.notification_count =
      s.notification_count + 1 := by
  rcases env with ⟨users, ph, del, intr⟩
  cases users with
  | nil =>
    cases ph <;> simp [send_batch_notification, h] at hint
  | cons u us =>
    cases ph with
    | none => simp [send_batch_notification, h] at hint
    | some p =>
      simp only [send_batch_notification, h, Bool.false_eq_true,
        if_false] at hint ⊢
      by_cases hi : (procBatches del intr (chunks50 (u :: us)).length 0
          (chunks50 (u :: us))).interrupted = true
      · rw [if_pos hi] at hint ⊢
        exact ⟨rfl, rfl, rfl, rfl⟩
      · rw [if_neg hi] at hint
        exact absurd hint Bool.false_ne_true

/-- Witness for C6's amended statement: a concrete interrupted run keeps the
counters and clears the flag. -/
theorem interrupted_run_contained_witness :
    ((⟨false, 1, 2, 3⟩ : SchedState).is_sending = false) ∧
    ((send_batch_notification ⟨false, 1, 2, 3⟩
        ⟨[7], some "x", fun _ => false, some 0⟩).2.interrupted = true) ∧
    ((send_batch_notification ⟨false, 1, 2, 3⟩
        ⟨[7], some "x", fun _ => false, some 0⟩).1.is_sending = false ∧
      (send_batch_notification ⟨false, 1, 2, 3⟩
        ⟨[7], some "x", fun _ => false, some 0⟩).1.total_sent = 2 ∧
      (send_batch_notification ⟨false, 1, 2, 3⟩
        ⟨[7], some "x", fun _ => false, some 0⟩).1.total_failed = 3 ∧
      (send_batch_notification ⟨false, 1, 2, 3⟩
        ⟨[7], some "x", fun _ => false, some 0⟩).1.notification_count = 2) :=
  ⟨rfl, by decide,
   interrupted_run_contained ⟨false, 1, 2, 3⟩
     ⟨[7], some "x", fun _ => false, some 0⟩ rfl (by decide)⟩

/-! ### C4 : per-recipient failure handling -/

/-- C4: on `RetryAfter t` the worker sleeps `min t 60` and retries exactly
once — two attempts total, success exactly when the retry succeeds; on
`Forbidden` it makes no retry, marks the recipient inactive and fails; on a
chat migration, another Telegram error or an unexpected error it makes no
retry and fails (a Telegram error additionally never sleeps). -/
theorem delivery_retry_policy (t : Nat) (second : TransportResp)
    (msg : String) (newId : Int) :
    ((send_to_user (.retryAfter t) second).retrySleep = some (min t 60)) ∧
    ((send_to_user (.retryAfter t) second).attempts = 2) ∧
    ((send_to_user (.retryAfter t) second).success = true ↔ second = .ok) ∧
    (send_to_user .forbidden second = ⟨false, none, 1, true⟩) ∧
    (send_to_user (.chatMigrated newId) second = ⟨false, none, 1, false⟩) ∧
    ((send_to_user (.telegramError msg) second).success = false ∧
      (send_to_user (.telegramError msg) second).attempts = 1 ∧
      (send_to_user (.telegramError msg) second).retrySleep = none) ∧
    (send_to_user (.otherError msg) second = ⟨false, none, 1, false⟩) := by
  refine ⟨?_, ?_, ?_, rfl, rfl, ⟨rfl, rfl, rfl⟩, rfl⟩
  · cases second <;> rfl
  · cases second <;> rfl
  · cases second <;> simp [send_to_user]

/-! ### C10 : batch counters partition the batch -/

/-- The classification fold of `_send_batch`, started from any accumulator,
adds the number of truthy results to the first component and the number of
exceptions and falsy results to the second. -/
lemma countStep_fold (rs : List TaskResult) :
    ∀ a b : Nat,
      rs.foldl countStep (a, b) =
        (a + rs.countP (fun r => r == .val true),
         b + rs.countP (fun r => !(r == .val true))) := by
  induction rs with
  | nil => intro a b; simp
  | cons r rs ih =>
    intro a b
    cases r with
    | exn =>
      simp only [List.foldl_cons, countStep, ih, List.countP_cons]
      simp [Prod.ext_iff]
      omega
    | val bv =>
      cases bv <;>
        · simp only [List.foldl_cons, countStep, ih, List.countP_cons]
          simp [Prod.ext_iff]
          omega

/-- Counting a class and its complement covers a list exactly once. -/
lemma countP_bool_split (l : List Nat) (p : Nat → Bool) :
    l.countP p + l.countP (fun u => !(p u)) = l.length := by
  induction l with
  | nil => rfl
  | cons x xs ih => cases hx : p x <;> simp [List.countP_cons, hx] <;> omega

/-- C10: `_send_batch` classifies every recipient of the batch as exactly one
of sent or failed: the sent counter counts the recipients whose task returned
`True`, the failed counter counts those whose task raised or returned a falsy
value, and the two always add up to the batch size — nobody is dropped or
double-counted. -/
theorem batch_counts_partition (user_ids : List Nat)
    (outcome : Nat → TaskResult) :
    ((send_batch user_ids outcome).1 =
      user_ids.countP (fun u => outcome u == .val true)) ∧
    ((send_batch user_ids outcome).2 =
      user_ids.countP (fun u => !(outcome u == .val true))) ∧
    ((send_batch user_ids outcome).1 + (send_batch user_ids outcome).2 =
      user_ids.length) := by
  have hfold := countStep_fold (user_ids.map outcome) 0 0
  have h1 : (send_batch user_ids outcome).1 =
      user_ids.countP (fun u => outcome u == .val true) := by
    rw [show send_batch user_ids outcome =
        (user_ids.map outcome).foldl countStep (0, 0) from rfl, hfold]
    simp only [List.countP_map, Nat.zero_add]
    rfl
  have h2 : (send_batch user_ids outcome).2 =
      user_ids.countP (fun u => !(outcome u == .val true)) := by
    rw [show send_batch user_ids outcome =
        (user_ids.map outcome).foldl countStep (0, 0) from rfl, hfold]
    simp only [List.countP_map, Nat.zero_add]
    rfl
  refine ⟨h1, h2, ?_⟩
  rw [h1, h2]
  exact countP_bool_split user_ids (fun u => outcome u == .val true)

end MatsavBot
